import Mathlib

/-!
Verification development for the WooCommerce review bot (`src/main.py`).

The script synthesizes customer reviews for a product, post-processes the
text (quote stripping, probabilistic typo injection), assigns reviewer
identities drawn without replacement from a shuffled pool, and posts each
review to the store's REST API.

Randomness is embedded by threading explicit choice parameters:
`random.random()` becomes a rational argument, `random.randint(x, y)` becomes
`pyRandint c x y` which maps an arbitrary natural-number choice `c` into the
inclusive range `[x, y]` (and is `none` when the range is empty, mirroring
Python's `ValueError`), and `random.shuffle` becomes the Fisher-Yates pass
`pyShuffle` driven by a choice function.  Calls to the external language
model are abstracted as an oracle indexed by invocation number, returning
either generated text or an exception message.
-/

namespace WooBot

/-- Characters treated as whitespace by Python's `str.split()` / `str.strip()`. -/
def isPySpace (c : Char) : Bool :=
  c = ' ' || c = '\t' || c = '\n' || c = '\r' || c = '\x0B' || c = '\x0C'

/-- Python `text.split()` at the character-list level: split on whitespace
runs, dropping empty chunks. -/
def pySplitL (cs : List Char) : List (List Char) :=
  (cs.splitOnP isPySpace).filter (· ≠ [])

/-- Python `text.split()`: the whitespace-delimited words of a string. -/
def pySplit (s : String) : List String :=
  (pySplitL s.data).map (fun w => ⟨w⟩)

/-- Python `" ".join(words)`. -/
def pyJoin (ws : List String) : String :=
  ⟨List.intercalate [' '] (ws.map String.data)⟩

/-- Python `text.strip()`: remove leading and trailing whitespace. -/
def pyStrip (s : String) : String :=
  ⟨((s.data.dropWhile isPySpace).reverse.dropWhile isPySpace).reverse⟩

/-- Python `random.randint(x, y)`: an arbitrary element of the inclusive range
`[x, y]`, selected by the choice parameter `c`; `none` when the range is empty
(Python raises `ValueError`). -/
def pyRandint (c : Nat) (x y : Int) : Option Int :=
  if x ≤ y then some (x + (c : Int) % (y - x + 1)) else none

/-- The double-quote character, `"`. -/
def quoteChar : Char := Char.ofNat 34

/-- The single-quote character. -/
def apostropheChar : Char := Char.ofNat 39

/-- Python `text.replace(c, '')` for a one-character pattern: remove every
occurrence of `c`. -/
def removeChar (c : Char) (s : String) : String :=
  ⟨s.data.filter (fun x => x != c)⟩

/-- The function `clean_review_text` of `src/main.py` (lines 84-90):
`text.replace('"', '').replace("'", "")`. -/
def clean_review_text (s : String) : String :=
  removeChar apostropheChar (removeChar quoteChar s)

/-- The function `introduce_typos` of `src/main.py` (lines 63-82).
The parameter `r` stands for the `random.random()` draw, and `cIdx`, `cA`,
`cB` drive the three `random.randint` calls in evaluation order.  The result
is `none` exactly when some `randint` is called on an empty range. -/
def introduce_typos (r : ℚ) (cIdx cA cB : Nat) (text : String) : Option String :=
  if r > mkRat 3 10 then some text
  else
    let words := pySplit text
    if words.length < 2 then some text
    else
      (pyRandint cIdx 0 ((words.length : Int) - 1)).bind fun index =>
        let word := words.getD index.toNat ""
        if word.length > 3 then
          (pyRandint cA 1 ((word.length : Int) - 2)).bind fun a =>
            (pyRandint cB 1 ((word.length : Int) - 1)).bind fun b =>
              let typo : String := ⟨word.data.take a.toNat ++ word.data.drop b.toNat⟩
              some (pyJoin (words.set index.toNat typo))
        else some (pyJoin words)

/-- One draw from the reviewer pool, `src/main.py` lines 131 and 156:
`reviewer_names.pop() if reviewer_names else "Anonymous"` — remove and return
the last element, or the sentinel when the pool is empty. -/
def poolDraw : List String → String × List String
  | [] => ("Anonymous", [])
  | x :: xs => ((x :: xs).getLast (by simp), (x :: xs).dropLast)

/-- The sequence of `k` consecutive draws from a pool. -/
def poolDraws : List String → Nat → List String
  | _, 0 => []
  | pool, k + 1 => (poolDraw pool).1 :: poolDraws (poolDraw pool).2 k

/-- Swap the elements at positions `i` and `j` of a list (identity when either
index is out of range). -/
def listSwap (l : List α) (i j : Nat) : List α :=
  if h : i < l.length ∧ j < l.length then
    (l.set i (l.get ⟨j, h.2⟩)).set j (l.get ⟨i, h.1⟩)
  else l

/-- Auxiliary loop of `pyShuffle`: for `i = n, n-1, ..., 1` swap position `i`
with a chosen position `j ≤ i`. -/
def pyShuffleAux (f : Nat → Nat) : Nat → List α → List α
  | 0, l => l
  | i + 1, l => pyShuffleAux f i (listSwap l (i + 1) (f (i + 1) % (i + 2)))

/-- Python `random.shuffle(x)` (the Fisher-Yates pass of CPython's `random`
module), with the per-step index draws given by the choice function `f`. -/
def pyShuffle (f : Nat → Nat) (l : List α) : List α :=
  pyShuffleAux f (l.length - 1) l

/-- A Python value stored in the product-info dictionary (an `int` id or a
string field). -/
inductive PyVal where
  | int (n : Int)
  | str (s : String)
deriving DecidableEq

/-- The dictionary built by `get_product_info` in `src/main.py` (lines 27-32)
when the lookup succeeds. -/
def get_product_info_dict (pid : Int) (title description short_description : String) :
    List (String × PyVal) :=
  [("product_id", PyVal.int pid), ("title", PyVal.str title),
   ("description", PyVal.str description),
   ("short_description", PyVal.str short_description)]

/-- Python dictionary read `d[k]`: `none` models a `KeyError`. -/
def dictGet (d : List (String × PyVal)) (k : String) : Option PyVal :=
  (d.find? (fun p => p.1 == k)).map (fun p => p.2)

/-- Python `s.replace(' ', '')`. -/
def pyRemoveSpaces (s : String) : String :=
  ⟨s.data.filter (fun c => c != ' ')⟩

/-- Python `s.lower()`, modelled on the ASCII range. -/
def pyLower (s : String) : String :=
  ⟨s.data.map Char.toLower⟩

/-- The submission payload built by `post_review_to_woocommerce`
(`src/main.py` lines 179-185). -/
structure Payload where
  product_id : PyVal
  review : String
  reviewer : String
  reviewer_email : String
  rating : Int
deriving DecidableEq

/-- The response of the review-submission service, as seen by the script. -/
structure HttpResponse where
  status_code : Int
  text : String

/-- Payload construction of `post_review_to_woocommerce` (`src/main.py`
lines 176-185), including the synthesized email when none is supplied. -/
def post_review_payload (product_id : PyVal) (review reviewer_name : String)
    (reviewer_email : Option String) (rating : Int) : Payload :=
  let email := match reviewer_email with
    | none => pyLower (pyRemoveSpaces reviewer_name) ++ "@gmail.com"
    | some e => e
  { product_id := product_id, review := review, reviewer := reviewer_name,
    reviewer_email := email, rating := rating }

/-- Response handling of `post_review_to_woocommerce` (`src/main.py`
lines 193-196): return the body on status 200/201, otherwise raise a
`ValueError` naming the status code and the body. -/
def post_review_result (resp : HttpResponse) : Except String String :=
  if resp.status_code = 200 ∨ resp.status_code = 201 then Except.ok resp.text
  else Except.error
    ("Failed to post review: " ++ toString resp.status_code ++ ", " ++ resp.text)

/-- The function `post_review_to_woocommerce` of `src/main.py` (lines 165-198):
the payload it submits, and either the response body or the re-wrapped
`RuntimeError` message (line 198). -/
def post_review_to_woocommerce (product_id : PyVal) (review reviewer_name : String)
    (reviewer_email : Option String) (rating : Int) (resp : HttpResponse) :
    Payload × Except String String :=
  let payload := post_review_payload product_id review reviewer_name reviewer_email rating
  match post_review_result resp with
  | Except.ok v => (payload, Except.ok v)
  | Except.error e => (payload, Except.error ("Error posting review: " ++ e))

/-- The per-run random draws and external language-model outcomes consumed by
`generate_reviews_with_openai`.  `modelResp i` is the outcome of the i-th
`openai.ChatCompletion.create` call (0-6 store reviews, 7-9 product reviews);
the remaining fields drive `random.shuffle`, `random.random` and
`random.randint` inside `introduce_typos`. -/
structure GenOracle where
  modelResp : Nat → Except String String
  shuffleNames : Nat → Nat
  shuffleReviews : Nat → Nat
  typoR : Nat → ℚ
  typoIdx : Nat → Nat
  typoA : Nat → Nat
  typoB : Nat → Nat

/-- One iteration of the generation loops (`src/main.py` lines 120-132 and
145-157): invoke the model, strip and clean the text, inject typos, draw a
reviewer from the pool, and append the pair. -/
def genStep (o : GenOracle) (i : Nat) (acc : List (String × String))
    (pool : List String) :
    Except String (List (String × String) × List String) :=
  (o.modelResp i).bind fun raw =>
    match introduce_typos (o.typoR i) (o.typoIdx i) (o.typoA i) (o.typoB i)
        (clean_review_text (pyStrip raw)) with
    | none => Except.error "ValueError: empty range for randrange"
    | some review_text =>
      Except.ok (acc ++ [(review_text, (poolDraw pool).1)], (poolDraw pool).2)

/-- Run `n` consecutive generation iterations starting at invocation index
`start`. -/
def genLoop (o : GenOracle) : Nat → Nat → List (String × String) → List String →
    Except String (List (String × String) × List String)
  | _, 0, acc, pool => Except.ok (acc, pool)
  | start, n + 1, acc, pool =>
    match genStep o start acc pool with
    | Except.error e => Except.error e
    | Except.ok st => genLoop o (start + 1) n st.1 st.2

/-- The function `generate_reviews_with_openai` of `src/main.py`
(lines 92-163): shuffle the reviewer pool, generate 7 store reviews then 3
product reviews, shuffle the batch, or wrap any failure in the
`RuntimeError` of line 163. -/
def generate_reviews_with_openai (o : GenOracle) (names : List String) :
    Except String (List (String × String)) :=
  match (genLoop o 0 7 [] (pyShuffle o.shuffleNames names)).bind
      (fun st => genLoop o 7 3 st.1 st.2) with
  | Except.error e => Except.error ("Error generating reviews: " ++ e)
  | Except.ok st2 => Except.ok (pyShuffle o.shuffleReviews st2.1)

/-- The posting loop of the `__main__` block (`src/main.py` lines 228-238).
Each iteration reads the product id from the product-info dictionary under
the misspelled key `"produQct_id"` (line 231), builds the payload with the
default rating 5 and no explicit email, and posts it.  The result is the
list of submission calls actually attempted (their payloads, in order) and
the error that aborted the loop, if any. -/
def postLoop (product_info : List (String × PyVal)) (resps : Nat → HttpResponse) :
    Nat → List (String × String) → List Payload → List Payload × Option String
  | _, [], sent => (sent, none)
  | k, rv :: rest, sent =>
    match dictGet product_info "produQct_id" with
    | none => (sent, some "KeyError: produQct_id")
    | some v =>
      let pr := post_review_to_woocommerce v rv.1 rv.2 none 5 (resps k)
      match pr.2 with
      | Except.error e => (sent ++ [pr.1], some e)
      | Except.ok _ => postLoop product_info resps (k + 1) rest (sent ++ [pr.1])

/-- The `__main__` orchestration from product lookup onward (`src/main.py`
lines 206-238): lookup, generation, then the posting loop; each `except`
block prints the error and exits, which the model reports as the second
component.  The first component is the list of submission calls attempted. -/
def runPipeline (lookup : Except String (List (String × PyVal))) (o : GenOracle)
    (names : List String) (resps : Nat → HttpResponse) :
    List Payload × Option String :=
  match lookup with
  | Except.error e => ([], some e)
  | Except.ok product_info =>
    match generate_reviews_with_openai o names with
    | Except.error e => ([], some e)
    | Except.ok reviews => postLoop product_info resps 0 reviews []

/-- The value produced by `random.randint(0, len(words) - 1)` at line 77 of
`src/main.py`, for the choice parameter `c`. -/
def idxChoice (c len : Nat) : Nat :=
  ((0 : Int) + (c : Int) % (((len : Int) - 1) - 0 + 1)).toNat

/-- The value produced by `random.randint(1, len(word) - 2)` at line 80 of
`src/main.py`, for the choice parameter `c`. -/
def aChoice (c wlen : Nat) : Nat :=
  ((1 : Int) + (c : Int) % (((wlen : Int) - 2) - 1 + 1)).toNat

/-- The value produced by `random.randint(1, len(word) - 1)` at line 80 of
`src/main.py`, for the choice parameter `c`. -/
def bChoice (c wlen : Nat) : Nat :=
  ((1 : Int) + (c : Int) % (((wlen : Int) - 1) - 1 + 1)).toNat

/-- A run of the generation oracle in which every model invocation succeeds
with a fixed text and all random draws are fixed; used to evaluate the
pipeline concretely. -/
def okOracle : GenOracle :=
  { modelResp := fun _ => Except.ok "Great store!"
    shuffleNames := fun _ => 0
    shuffleReviews := fun _ => 0
    typoR := fun _ => 1
    typoIdx := fun _ => 0
    typoA := fun _ => 0
    typoB := fun _ => 0 }

/-- A run of the generation oracle in which the very first model invocation
raises an exception. -/
def failOracle : GenOracle :=
  { modelResp := fun _ => Except.error "APIError"
    shuffleNames := fun _ => 0
    shuffleReviews := fun _ => 0
    typoR := fun _ => 1
    typoIdx := fun _ => 0
    typoA := fun _ => 0
    typoB := fun _ => 0 }

example : pySplit "hi  there " = ["hi", "there"] := by decide
example : clean_review_text "say \x22hi\x22" = "say hi" := by decide
example : introduce_typos 1 0 0 0 "hello world" = some "hello world" := by decide
example : introduce_typos 0 1 2 0 "hi abcde" = some "hi abcbcde" := by decide
example : introduce_typos 0 0 0 0 "hi abcde" = some "hi abcde" := by decide
example : poolDraws ["Alice", "Bob"] 3 = ["Bob", "Alice", "Anonymous"] := by decide
example : pyShuffle (fun _ => 0) ["a", "b", "c"] = ["b", "c", "a"] := by decide

/-! ## Helper lemmas -/

theorem get_cons_set_perm (xs : List α) (k : Nat) (h : k < xs.length) (a : α) :
    List.Perm (xs.get ⟨k, h⟩ :: xs.set k a) (a :: xs) := by
  induction xs generalizing k with
  | nil => simp at h
  | cons y ys ih =>
    cases k with
    | zero => simpa using List.Perm.swap a y ys
    | succ k =>
      have h' : k < ys.length := Nat.lt_of_succ_lt_succ h
      exact (List.Perm.swap _ _ _).trans (((ih k h').cons y).trans
        (List.Perm.swap _ _ _))

theorem set_set_swap_perm (l : List α) (i j : Nat) (hi : i < l.length)
    (hj : j < l.length) :
    List.Perm ((l.set i (l.get ⟨j, hj⟩)).set j (l.get ⟨i, hi⟩)) l := by
  induction l generalizing i j with
  | nil => simp at hi
  | cons x xs ih =>
    cases i with
    | zero =>
      cases j with
      | zero => simp
      | succ k =>
        have hk : k < xs.length := Nat.lt_of_succ_lt_succ hj
        simpa using get_cons_set_perm xs k hk x
    | succ m =>
      cases j with
      | zero =>
        have hm : m < xs.length := Nat.lt_of_succ_lt_succ hi
        simpa using get_cons_set_perm xs m hm x
      | succ k =>
        have hm : m < xs.length := Nat.lt_of_succ_lt_succ hi
        have hk : k < xs.length := Nat.lt_of_succ_lt_succ hj
        simpa using (ih m k hm hk).cons x

theorem listSwap_perm (l : List α) (i j : Nat) : List.Perm (listSwap l i j) l := by
  unfold listSwap
  by_cases h : i < l.length ∧ j < l.length
  · rw [dif_pos h]
    exact set_set_swap_perm l i j h.1 h.2
  · rw [dif_neg h]

theorem pyShuffleAux_perm (f : Nat → Nat) (n : Nat) (l : List α) :
    List.Perm (pyShuffleAux f n l) l := by
  induction n generalizing l with
  | zero => exact List.Perm.refl l
  | succ i ih =>
    exact (ih (listSwap l (i + 1) (f (i + 1) % (i + 2)))).trans
      (listSwap_perm l (i + 1) (f (i + 1) % (i + 2)))

theorem pyShuffle_perm (f : Nat → Nat) (l : List α) :
    List.Perm (pyShuffle f l) l :=
  pyShuffleAux_perm f (l.length - 1) l

theorem pyRandint_some (c : Nat) (x y : Int) (h : x ≤ y) :
    pyRandint c x y = some (x + (c : Int) % (y - x + 1)) := by
  unfold pyRandint
  rw [if_pos h]

theorem pyRandint_bounds (c : Nat) (x y : Int) (h : x ≤ y) :
    x ≤ x + (c : Int) % (y - x + 1) ∧ x + (c : Int) % (y - x + 1) ≤ y := by
  have hpos : (0 : Int) < y - x + 1 := by omega
  have h1 : (0 : Int) ≤ (c : Int) % (y - x + 1) :=
    Int.emod_nonneg _ (by omega)
  have h2 : (c : Int) % (y - x + 1) < y - x + 1 := Int.emod_lt_of_pos _ hpos
  omega

theorem poolDraw_concat (ys : List String) (y : String) :
    poolDraw (ys ++ [y]) = (y, ys) := by
  cases ys with
  | nil => rfl
  | cons z zs =>
    show ((z :: (zs ++ [y])).getLast (by simp), (z :: (zs ++ [y])).dropLast)
        = (y, z :: zs)
    rw [Prod.mk.injEq]
    exact ⟨List.getLast_append_singleton (z :: zs),
      show ((z :: zs) ++ [y]).dropLast = z :: zs from List.dropLast_concat ..⟩

theorem poolDraws_nil (k : Nat) : poolDraws [] k = List.replicate k "Anonymous" := by
  induction k with
  | zero => rfl
  | succ n ih =>
    show "Anonymous" :: poolDraws [] n = _
    rw [ih, List.replicate_succ]

theorem poolDraws_concat (ys : List String) (y : String) (k : Nat) :
    poolDraws (ys ++ [y]) (k + 1) = y :: poolDraws ys k := by
  show (poolDraw (ys ++ [y])).1 :: poolDraws (poolDraw (ys ++ [y])).2 k = _
  rw [poolDraw_concat]

theorem poolDraws_full (names : List String) (k : Nat) :
    poolDraws names (names.length + k)
      = names.reverse ++ List.replicate k "Anonymous" := by
  induction names using List.reverseRecOn generalizing k with
  | nil => simpa using poolDraws_nil k
  | append_singleton ys y ih =>
    have hlen : (ys ++ [y]).length + k = (ys.length + k) + 1 := by
      simp; omega
    rw [hlen, poolDraws_concat, ih, List.reverse_append]
    simp

theorem splitOnP_chunks {α : Type} (p : α → Bool) (l : List α) :
    ∀ w ∈ l.splitOnP p, ∀ c ∈ w, p c = false := by
  induction l with
  | nil =>
    intro w hw c hc
    rw [List.splitOnP_nil] at hw
    rcases List.mem_singleton.mp hw with rfl
    simp at hc
  | cons a t ih =>
    intro w hw c hc
    rw [List.splitOnP_cons] at hw
    by_cases hpa : p a
    · rw [if_pos hpa] at hw
      rcases List.mem_cons.mp hw with h | h
      · subst h; simp at hc
      · exact ih w h c hc
    · rw [if_neg hpa] at hw
      obtain ⟨h1, t1, ht⟩ : ∃ h1 t1, t.splitOnP p = h1 :: t1 := by
        cases he : t.splitOnP p with
        | nil => exact absurd he (List.splitOnP_ne_nil _ _)
        | cons h1 t1 => exact ⟨h1, t1, rfl⟩
      rw [ht, List.modifyHead_cons] at hw
      rcases List.mem_cons.mp hw with h | h
      · subst h
        rcases List.mem_cons.mp hc with hc1 | hc1
        · subst hc1
          exact Bool.eq_false_iff.mpr hpa
        · exact ih h1 (ht ▸ List.mem_cons_self h1 t1) c hc1
      · exact ih w (ht ▸ List.mem_cons_of_mem h1 h) c hc

theorem pySplitL_words (cs : List Char) :
    ∀ w ∈ pySplitL cs, w ≠ [] ∧ ∀ c ∈ w, isPySpace c = false := by
  intro w hw
  rw [pySplitL, List.mem_filter] at hw
  refine ⟨?_, splitOnP_chunks isPySpace cs w hw.1⟩
  simpa using hw.2

theorem intercalate_single (w : List Char) : List.intercalate [' '] [w] = w := by
  simp [List.intercalate]

theorem intercalate_cons_cons (x y : List Char) (tl : List (List Char)) :
    List.intercalate [' '] (x :: y :: tl)
      = x ++ ' ' :: List.intercalate [' '] (y :: tl) := by
  simp [List.intercalate, List.intersperse_cons_cons]

theorem pySplitL_intercalate (ws : List (List Char))
    (h : ∀ w ∈ ws, w ≠ [] ∧ ∀ c ∈ w, isPySpace c = false) :
    pySplitL (List.intercalate [' '] ws) = ws := by
  induction ws with
  | nil => simp [pySplitL, List.intercalate, List.splitOnP_nil]
  | cons x tl ih =>
    cases tl with
    | nil =>
      have hx := h x (List.mem_cons_self x [])
      rw [intercalate_single, pySplitL,
        List.splitOnP_eq_single _ _ (fun c hc => by simp [hx.2 c hc])]
      simp [hx.1]
    | cons y tl2 =>
      have hx := h x (List.mem_cons_self x _)
      rw [intercalate_cons_cons, pySplitL,
        List.splitOnP_first _ _ (fun c hc => by simp [hx.2 c hc]) ' ' (by decide) _]
      rw [List.filter_cons_of_pos (by simpa using hx.1)]
      have htl := ih (fun w hw => h w (List.mem_cons_of_mem x hw))
      rw [pySplitL] at htl
      rw [htl]

theorem pySplit_words (text : String) :
    ∀ w ∈ pySplit text, w.data ≠ [] ∧ ∀ c ∈ w.data, isPySpace c = false := by
  intro w hw
  obtain ⟨l, hl, rfl⟩ := List.mem_map.mp hw
  exact pySplitL_words text.data l hl

theorem pySplit_pyJoin (ws : List String)
    (h : ∀ w ∈ ws, w.data ≠ [] ∧ ∀ c ∈ w.data, isPySpace c = false) :
    pySplit (pyJoin ws) = ws := by
  have hp : ∀ w ∈ ws.map String.data, w ≠ [] ∧ ∀ c ∈ w, isPySpace c = false := by
    intro w hw
    obtain ⟨s, hs, rfl⟩ := List.mem_map.mp hw
    exact h s hs
  show (pySplitL (List.intercalate [' '] (ws.map String.data))).map (fun w => ⟨w⟩) = ws
  rw [pySplitL_intercalate _ hp, List.map_map]
  have hid : ∀ s ∈ ws, ((fun w => (⟨w⟩ : String)) ∘ String.data) s = s := fun s _ => rfl
  rw [List.map_congr_left hid]
  simp

theorem introduce_typos_total (r : ℚ) (cIdx cA cB : Nat) (text : String) :
    (introduce_typos r cIdx cA cB text).isSome = true := by
  unfold introduce_typos
  by_cases hr : r > mkRat 3 10
  · rw [if_pos hr]
    rfl
  · rw [if_neg hr]
    by_cases hw : (pySplit text).length < 2
    · rw [if_pos hw]
      rfl
    · rw [if_neg hw]
      have h1 : (0 : Int) ≤ ((pySplit text).length : Int) - 1 := by
        omega
      rw [pyRandint_some _ _ _ h1, Option.some_bind]
      by_cases hword : ((pySplit text).getD
          (0 + (cIdx : Int) % (((pySplit text).length : Int) - 1 - 0 + 1)).toNat
          "").length > 3
      · rw [if_pos hword]
        have h2 : (1 : Int) ≤ (((pySplit text).getD
            (0 + (cIdx : Int) % (((pySplit text).length : Int) - 1 - 0 + 1)).toNat
            "").length : Int) - 2 := by
          omega
        have h3 : (1 : Int) ≤ (((pySplit text).getD
            (0 + (cIdx : Int) % (((pySplit text).length : Int) - 1 - 0 + 1)).toNat
            "").length : Int) - 1 := by
          omega
        rw [pyRandint_some _ _ _ h2, Option.some_bind,
          pyRandint_some _ _ _ h3, Option.some_bind]
        rfl
      · rw [if_neg hword]
        rfl

theorem idxChoice_lt (c len : Nat) (h : 2 ≤ len) : idxChoice c len < len := by
  unfold idxChoice
  have := pyRandint_bounds c 0 ((len : Int) - 1) (by omega)
  omega

theorem aChoice_bounds (c wlen : Nat) (h : 3 < wlen) :
    1 ≤ aChoice c wlen ∧ aChoice c wlen ≤ wlen - 2 := by
  unfold aChoice
  have := pyRandint_bounds c 1 ((wlen : Int) - 2) (by omega)
  omega

theorem bChoice_bounds (c wlen : Nat) (h : 3 < wlen) :
    1 ≤ bChoice c wlen ∧ bChoice c wlen ≤ wlen - 1 := by
  unfold bChoice
  have := pyRandint_bounds c 1 ((wlen : Int) - 1) (by omega)
  omega

/-- Evaluation of introduce_typos when both guards fail and the selected word
is too short to mutate: the words are rejoined unchanged. -/
theorem introduce_typos_eval_short (r : ℚ) (cIdx cA cB : Nat) (text : String)
    (hr : ¬ r > mkRat 3 10) (hw : ¬ (pySplit text).length < 2)
    (hword : ¬ 3 < ((pySplit text).getD
      (idxChoice cIdx (pySplit text).length) "").length) :
    introduce_typos r cIdx cA cB text = some (pyJoin (pySplit text)) := by
  unfold idxChoice at hword
  unfold introduce_typos
  rw [if_neg hr, if_neg hw,
    pyRandint_some _ _ _ (show (0 : Int) ≤ ((pySplit text).length : Int) - 1 by omega),
    Option.some_bind, if_neg hword]

/-- Evaluation of introduce_typos when both guards fail and the selected word
has length > 3: that word is replaced by the concatenation of its prefix of
length aChoice and its suffix from position bChoice. -/
theorem introduce_typos_eval_long (r : ℚ) (cIdx cA cB : Nat) (text : String)
    (hr : ¬ r > mkRat 3 10) (hw : ¬ (pySplit text).length < 2)
    (hword : 3 < ((pySplit text).getD
      (idxChoice cIdx (pySplit text).length) "").length) :
    introduce_typos r cIdx cA cB text
      = some (pyJoin ((pySplit text).set (idxChoice cIdx (pySplit text).length)
          ⟨((pySplit text).getD (idxChoice cIdx (pySplit text).length) "").data.take
              (aChoice cA ((pySplit text).getD
                (idxChoice cIdx (pySplit text).length) "").length)
            ++ ((pySplit text).getD (idxChoice cIdx (pySplit text).length) "").data.drop
              (bChoice cB ((pySplit text).getD
                (idxChoice cIdx (pySplit text).length) "").length)⟩)) := by
  unfold idxChoice at hword
  unfold introduce_typos idxChoice aChoice bChoice
  rw [if_neg hr, if_neg hw,
    pyRandint_some _ _ _ (show (0 : Int) ≤ ((pySplit text).length : Int) - 1 by omega),
    Option.some_bind, if_pos hword,
    pyRandint_some _ _ _ (show (1 : Int) ≤ _ - 2 by omega), Option.some_bind,
    pyRandint_some _ _ _ (show (1 : Int) ≤ _ - 1 by omega), Option.some_bind]

/-! ## Claim theorems -/

/-- C9: for every input text, the output of the cleaning step
`clean_review_text` contains no double-quote and no single-quote character. -/
theorem c9_clean_removes_quotes (text : String) :
    ((clean_review_text text).data.all
      (fun c => c != quoteChar && c != apostropheChar)) = true := by
  rw [List.all_eq_true]
  intro c hc
  have hmem : c ∈ (text.data.filter (fun x => x != quoteChar)).filter
      (fun x => x != apostropheChar) := hc
  rw [List.mem_filter] at hmem
  have h1 := hmem.2
  have h2 := (List.mem_filter.mp hmem.1).2
  simp only [Bool.and_eq_true]
  exact ⟨h2, h1⟩

/-- C8: when no explicit reviewer email is supplied, the payload email is the
reviewer name with spaces removed and lowercased, followed by "@gmail.com";
in particular "Jane Doe" yields "janedoe@gmail.com". -/
theorem c8_email_synthesis :
    (∀ (pid : PyVal) (review name : String) (rating : Int),
      (post_review_payload pid review name none rating).reviewer_email
        = pyLower (pyRemoveSpaces name) ++ "@gmail.com")
    ∧ (∀ (pid : PyVal) (review : String) (rating : Int),
      (post_review_payload pid review "Jane Doe" none rating).reviewer_email
        = "janedoe@gmail.com") := by
  constructor
  · intro pid review name rating
    rfl
  · intro pid review rating
    show pyLower (pyRemoveSpaces "Jane Doe") ++ "@gmail.com" = "janedoe@gmail.com"
    decide

theorem post_review_snd (product_id : PyVal) (review reviewer_name : String)
    (reviewer_email : Option String) (rating : Int) (resp : HttpResponse) :
    (post_review_to_woocommerce product_id review reviewer_name reviewer_email
        rating resp).2 =
      if resp.status_code = 200 ∨ resp.status_code = 201 then Except.ok resp.text
      else Except.error ("Error posting review: " ++ ("Failed to post review: "
        ++ toString resp.status_code ++ ", " ++ resp.text)) := by
  unfold post_review_to_woocommerce post_review_result
  by_cases h : resp.status_code = 200 ∨ resp.status_code = 201
  · rw [if_pos h, if_pos h]
  · rw [if_neg h, if_neg h]

theorem except_error_bind {ε α β : Type} (e : ε) (f : α → Except ε β) :
    (Except.error e : Except ε α).bind f = Except.error e := rfl

theorem except_ok_bind {ε α β : Type} (a : α) (f : α → Except ε β) :
    (Except.ok a : Except ε α).bind f = f a := rfl

theorem genStep_error (o : GenOracle) (i : Nat) (acc : List (String × String))
    (pool : List String) (e : String) (he : o.modelResp i = Except.error e) :
    genStep o i acc pool = Except.error e := by
  unfold genStep
  rw [he, except_error_bind]

theorem genStep_ok (o : GenOracle) (i : Nat) (acc : List (String × String))
    (pool : List String) (v : String) (hv : o.modelResp i = Except.ok v) :
    ∃ review_text, genStep o i acc pool
      = Except.ok (acc ++ [(review_text, (poolDraw pool).1)], (poolDraw pool).2) := by
  unfold genStep
  rw [hv, except_ok_bind]
  obtain ⟨t, ht⟩ := Option.isSome_iff_exists.mp
    (introduce_typos_total (o.typoR i) (o.typoIdx i) (o.typoA i) (o.typoB i)
      (clean_review_text (pyStrip v)))
  rw [ht]
  exact ⟨t, rfl⟩

theorem genLoop_error (o : GenOracle) (start n : Nat)
    (acc : List (String × String)) (pool : List String)
    (hex : ∃ j, start ≤ j ∧ j < start + n ∧ ∃ e, o.modelResp j = Except.error e) :
    ∃ e, genLoop o start n acc pool = Except.error e := by
  induction n generalizing start acc pool with
  | zero =>
    obtain ⟨j, h1, h2, _⟩ := hex
    omega
  | succ m ih =>
    cases hm : o.modelResp start with
    | error e =>
      refine ⟨e, ?_⟩
      unfold genLoop
      rw [genStep_error o start acc pool e hm]
    | ok v =>
      obtain ⟨t, ht⟩ := genStep_ok o start acc pool v hm
      have hex' : ∃ j, start + 1 ≤ j ∧ j < (start + 1) + m
          ∧ ∃ e, o.modelResp j = Except.error e := by
        obtain ⟨j, h1, h2, e, he⟩ := hex
        refine ⟨j, ?_, by omega, e, he⟩
        rcases Nat.eq_or_lt_of_le h1 with rfl | h
        · rw [hm] at he
          simp at he
        · omega
      obtain ⟨e2, he2⟩ := ih (start + 1) (acc ++ [(t, (poolDraw pool).1)])
        (poolDraw pool).2 hex'
      refine ⟨e2, ?_⟩
      unfold genLoop
      rw [ht]
      exact he2

theorem genLoop_ok (o : GenOracle) (start n : Nat)
    (acc : List (String × String)) (pool : List String)
    (hok : ∀ j, start ≤ j → j < start + n → ∃ v, o.modelResp j = Except.ok v) :
    ∃ st, genLoop o start n acc pool = Except.ok st
      ∧ st.1.length = acc.length + n := by
  induction n generalizing start acc pool with
  | zero => exact ⟨(acc, pool), rfl, by simp⟩
  | succ m ih =>
    obtain ⟨v, hv⟩ := hok start (Nat.le_refl _) (by omega)
    obtain ⟨t, ht⟩ := genStep_ok o start acc pool v hv
    obtain ⟨st, hst, hlen⟩ := ih (start + 1) (acc ++ [(t, (poolDraw pool).1)])
      (poolDraw pool).2 (fun j h1 h2 => hok j (by omega) (by omega))
    refine ⟨st, ?_, ?_⟩
    · unfold genLoop
      rw [ht]
      exact hst
    · rw [hlen, List.length_append]
      simp
      omega

theorem generate_error (o : GenOracle) (names : List String)
    (hex : ∃ j, j < 10 ∧ ∃ e, o.modelResp j = Except.error e) :
    ∃ msg, generate_reviews_with_openai o names = Except.error msg := by
  by_cases h7 : ∃ j, j < 7 ∧ ∃ e, o.modelResp j = Except.error e
  · obtain ⟨j, hj, e, he⟩ := h7
    obtain ⟨e1, he1⟩ := genLoop_error o 0 7 [] (pyShuffle o.shuffleNames names)
      ⟨j, by omega, by omega, e, he⟩
    refine ⟨"Error generating reviews: " ++ e1, ?_⟩
    unfold generate_reviews_with_openai
    rw [he1, except_error_bind]
  · push_neg at h7
    have hok : ∀ j, 0 ≤ j → j < 0 + 7 → ∃ v, o.modelResp j = Except.ok v := by
      intro j _ hj
      cases hm : o.modelResp j with
      | error e => exact absurd hm (h7 j (by omega) e)
      | ok v => exact ⟨v, rfl⟩
    obtain ⟨st, hst, _⟩ := genLoop_ok o 0 7 [] (pyShuffle o.shuffleNames names) hok
    obtain ⟨j, hj, e, he⟩ := hex
    have hj7 : 7 ≤ j := by
      by_contra hlt
      exact h7 j (by omega) e he
    obtain ⟨e2, he2⟩ := genLoop_error o 7 3 st.1 st.2 ⟨j, by omega, by omega, e, he⟩
    refine ⟨"Error generating reviews: " ++ e2, ?_⟩
    unfold generate_reviews_with_openai
    rw [hst, except_ok_bind, he2]

theorem generate_ok (o : GenOracle) (names : List String)
    (hok : ∀ j, j < 10 → ∃ v, o.modelResp j = Except.ok v) :
    ∃ reviews, generate_reviews_with_openai o names = Except.ok reviews
      ∧ reviews.length = 10 := by
  obtain ⟨st, hst, hlen⟩ := genLoop_ok o 0 7 [] (pyShuffle o.shuffleNames names)
    (fun j h1 h2 => hok j (by omega))
  obtain ⟨st2, hst2, hlen2⟩ := genLoop_ok o 7 3 st.1 st.2
    (fun j h1 h2 => hok j (by omega))
  refine ⟨pyShuffle o.shuffleReviews st2.1, ?_, ?_⟩
  · unfold generate_reviews_with_openai
    rw [hst, except_ok_bind, hst2]
  · rw [(pyShuffle_perm o.shuffleReviews st2.1).length_eq, hlen2, hlen]
    simp

/-- C2 counterexample: the claim fails as stated when the sentinel string
"Anonymous" is itself one of the unique loaded names.  With the pool
["Anonymous"], the first draw pops "Anonymous" and the second draw yields the
sentinel "Anonymous", so a name from the pool is yielded twice. -/
theorem c2_counterexample :
    (["Anonymous"] : List String).Nodup
    ∧ poolDraws ["Anonymous"] 2 = ["Anonymous", "Anonymous"]
    ∧ "Anonymous" ∈ (["Anonymous"] : List String)
    ∧ (poolDraws ["Anonymous"] 2).count "Anonymous" = 2 := by
  refine ⟨?_, ?_, ?_, ?_⟩ <;> decide

/-- C2 (amended): for a pool of N unique names, the first N draws yield the N
names pairwise distinct (in reversed load order), every later draw yields the
sentinel "Anonymous", and — provided the sentinel is not itself among the
loaded names — no name from the pool is yielded twice. -/
theorem c2_pool_draws (names : List String) (k : Nat) (hnd : names.Nodup) :
    poolDraws names (names.length + k)
        = names.reverse ++ List.replicate k "Anonymous"
    ∧ List.Perm (poolDraws names names.length) names
    ∧ (poolDraws names names.length).Nodup
    ∧ ("Anonymous" ∉ names →
        ∀ n ∈ names, (poolDraws names (names.length + k)).count n ≤ 1) := by
  have h0 : poolDraws names names.length = names.reverse := by
    have := poolDraws_full names 0
    simpa using this
  refine ⟨poolDraws_full names k, ?_, ?_, ?_⟩
  · rw [h0]
    exact List.reverse_perm names
  · rw [h0]
    exact List.nodup_reverse.mpr hnd
  · intro hA n hn
    rw [poolDraws_full, List.count_append, List.count_reverse,
      List.count_replicate]
    have hne : ("Anonymous" == n) = false := by
      rcases instDecidableEqString "Anonymous" n with h | h
      · simp [h]
      · exact absurd (h ▸ hn) hA
    rw [hne]
    simp only [Bool.false_eq_true, if_false]
    have := List.nodup_iff_count_le_one.mp hnd n
    omega

/-- Witness for C2 at the pool ["Alice", "Bob"] with one extra draw. -/
theorem c2_pool_draws_witness :
    (["Alice", "Bob"] : List String).Nodup
    ∧ (poolDraws ["Alice", "Bob"] ((["Alice", "Bob"] : List String).length + 1)
          = (["Alice", "Bob"] : List String).reverse ++ List.replicate 1 "Anonymous"
      ∧ List.Perm (poolDraws ["Alice", "Bob"]
          (["Alice", "Bob"] : List String).length) ["Alice", "Bob"]
      ∧ (poolDraws ["Alice", "Bob"] (["Alice", "Bob"] : List String).length).Nodup
      ∧ ("Anonymous" ∉ (["Alice", "Bob"] : List String) →
          ∀ n ∈ (["Alice", "Bob"] : List String),
            (poolDraws ["Alice", "Bob"]
              ((["Alice", "Bob"] : List String).length + 1)).count n ≤ 1)) :=
  ⟨by decide, c2_pool_draws ["Alice", "Bob"] 1 (by decide)⟩

/-- C10: typo injection is total — for every input text and every outcome of
the internal random choices, introduce_typos returns a string (never the
`none` that models a Python exception): the guards make every randint range
non-empty. -/
theorem c10_typos_total (r : ℚ) (cIdx cA cB : Nat) (text : String) :
    (introduce_typos r cIdx cA cB text).isSome = true :=
  introduce_typos_total r cIdx cA cB text

theorem set_typo_words (text : String) (index a b : Nat)
    (hidx : index < (pySplit text).length) (ha1 : 1 ≤ a) :
    ∀ w ∈ (pySplit text).set index
        ⟨((pySplit text).getD index "").data.take a
          ++ ((pySplit text).getD index "").data.drop b⟩,
      w.data ≠ [] ∧ ∀ c ∈ w.data, isPySpace c = false := by
  have hwmem : (pySplit text).getD index "" ∈ pySplit text := by
    rw [List.getD_eq_getElem?_getD, List.getElem?_eq_getElem hidx, Option.getD_some]
    exact List.getElem_mem _
  have hwprops := pySplit_words text _ hwmem
  intro w hw
  rcases List.mem_or_eq_of_mem_set hw with hmem | rfl
  · exact pySplit_words text w hmem
  · constructor
    · intro hnil
      rcases List.append_eq_nil.mp hnil with ⟨h1, _⟩
      rcases List.take_eq_nil_iff.mp h1 with h | h
      · omega
      · exact hwprops.1 h
    · intro ch hch
      rcases List.mem_append.mp hch with h | h
      · exact hwprops.2 ch (List.mem_of_mem_take h)
      · exact hwprops.2 ch (List.mem_of_mem_drop h)

/-- C4: typo injection changes at most one whitespace-delimited word.  When
the probabilistic gate does not fire (the random.random() draw exceeds 0.3,
an event of probability 0.7), the text passes through unchanged; when the
text has fewer than 2 words it passes through unchanged; and in every case
the word list of the output equals the word list of the input with at most
one position replaced. -/
theorem c4_at_most_one_word (r : ℚ) (cIdx cA cB : Nat) (text : String) :
    (r > mkRat 3 10 → introduce_typos r cIdx cA cB text = some text)
    ∧ ((pySplit text).length < 2 → introduce_typos r cIdx cA cB text = some text)
    ∧ (∀ out, introduce_typos r cIdx cA cB text = some out →
        ∃ i w, pySplit out = (pySplit text).set i w) := by
  refine ⟨?_, ?_, ?_⟩
  · intro hr
    unfold introduce_typos
    rw [if_pos hr]
  · intro hw
    unfold introduce_typos
    by_cases hr : r > mkRat 3 10
    · rw [if_pos hr]
    · rw [if_neg hr, if_pos hw]
  · intro out hout
    by_cases hr : r > mkRat 3 10
    · unfold introduce_typos at hout
      rw [if_pos hr] at hout
      obtain rfl := Option.some.inj hout
      exact ⟨(pySplit text).length, "",
        (List.set_eq_of_length_le (Nat.le_refl _)).symm⟩
    · by_cases hw : (pySplit text).length < 2
      · unfold introduce_typos at hout
        rw [if_neg hr, if_pos hw] at hout
        obtain rfl := Option.some.inj hout
        exact ⟨(pySplit text).length, "",
          (List.set_eq_of_length_le (Nat.le_refl _)).symm⟩
      · by_cases hword : 3 < ((pySplit text).getD
            (idxChoice cIdx (pySplit text).length) "").length
        · rw [introduce_typos_eval_long r cIdx cA cB text hr hw hword] at hout
          obtain rfl := Option.some.inj hout
          refine ⟨idxChoice cIdx (pySplit text).length,
            ⟨((pySplit text).getD (idxChoice cIdx (pySplit text).length) "").data.take
                (aChoice cA ((pySplit text).getD
                  (idxChoice cIdx (pySplit text).length) "").length)
              ++ ((pySplit text).getD (idxChoice cIdx (pySplit text).length) "").data.drop
                (bChoice cB ((pySplit text).getD
                  (idxChoice cIdx (pySplit text).length) "").length)⟩, ?_⟩
          exact pySplit_pyJoin _ (set_typo_words text _ _ _
            (idxChoice_lt cIdx _ (Nat.le_of_not_lt hw))
            (aChoice_bounds cA _ hword).1)
        · rw [introduce_typos_eval_short r cIdx cA cB text hr hw hword] at hout
          obtain rfl := Option.some.inj hout
          refine ⟨(pySplit text).length, "", ?_⟩
          rw [pySplit_pyJoin _ (pySplit_words text),
            List.set_eq_of_length_le (Nat.le_refl _)]

/-- Witness for C4 at the gate value 1 and the text "hello world". -/
theorem c4_at_most_one_word_witness :
    (1 : ℚ) > mkRat 3 10
    ∧ introduce_typos 1 0 0 0 "hello world" = some "hello world"
    ∧ (∃ i w, pySplit "hello world" = (pySplit "hello world").set i w) :=
  ⟨by decide,
   (c4_at_most_one_word 1 0 0 0 "hello world").1 (by decide),
   (c4_at_most_one_word 1 0 0 0 "hello world").2.2 "hello world"
     ((c4_at_most_one_word 1 0 0 0 "hello world").1 (by decide))⟩

/-- C3 counterexample: at the text "hi abcde" with the gate firing, the
choices cIdx = 1, cA = 2, cB = 0 select the word "abcde" and replace it by
"abcbcde" (prefix "abc" of length 3 concatenated with suffix "bcde" from
position 1), which is LONGER than the original word — refuting the claim
that the replacement is obtained by deleting a contiguous span and is never
longer.  Moreover choice cIdx = 0 selects the word "hi" of length 2 ≤ 3 and
changes nothing, refuting the claim that the selected word always has
length > 3. -/
theorem c3_counterexample :
    introduce_typos 0 1 2 0 "hi abcde" = some "hi abcbcde"
    ∧ pySplit "hi abcde" = ["hi", "abcde"]
    ∧ pySplit "hi abcbcde" = ["hi", "abcbcde"]
    ∧ ("abcde" : String).length < ("abcbcde" : String).length
    ∧ introduce_typos 0 0 0 0 "hi abcde" = some "hi abcde"
    ∧ ("hi" : String).length ≤ 3 := by
  refine ⟨?_, ?_, ?_, ?_, ?_, ?_⟩ <;> decide

/-- C3 (amended): in the mutation branch a uniformly chosen index over ALL
whitespace-delimited words selects a word; only when that word has length
greater than 3 is it replaced, by the concatenation of its prefix of length
a, for a in the range 1 to len - 2, with its suffix from position b, for b in
the range 1 to len - 1.  When a is at most b this deletes the contiguous span
from a to b of the word, but when b is less than a characters are duplicated
and the replacement is strictly longer than the original word. -/
theorem c3_typo_mutation (r : ℚ) (cIdx cA cB : Nat) (text : String)
    (hr : ¬ r > mkRat 3 10) (hw : 2 ≤ (pySplit text).length) :
    ∃ index word, index < (pySplit text).length
      ∧ word = (pySplit text).getD index ""
      ∧ ((word.length ≤ 3 ∧ introduce_typos r cIdx cA cB text
            = some (pyJoin (pySplit text)))
        ∨ (3 < word.length ∧ ∃ a b, 1 ≤ a ∧ a ≤ word.length - 2
            ∧ 1 ≤ b ∧ b ≤ word.length - 1
            ∧ introduce_typos r cIdx cA cB text
                = some (pyJoin ((pySplit text).set index
                    ⟨word.data.take a ++ word.data.drop b⟩))
            ∧ (word.data.take a ++ word.data.drop b).length
                = a + (word.length - b)
            ∧ (a ≤ b →
                word.data.take a ++ (word.data.take b).drop a ++ word.data.drop b
                  = word.data)
            ∧ (b < a →
                word.length < (word.data.take a ++ word.data.drop b).length))) := by
  have hw' : ¬ (pySplit text).length < 2 := Nat.not_lt.mpr hw
  refine ⟨idxChoice cIdx (pySplit text).length,
    (pySplit text).getD (idxChoice cIdx (pySplit text).length) "",
    idxChoice_lt cIdx _ hw, rfl, ?_⟩
  by_cases hword : 3 < ((pySplit text).getD
      (idxChoice cIdx (pySplit text).length) "").length
  · right
    have ha := aChoice_bounds cA _ hword
    have hb := bChoice_bounds cB _ hword
    have hwl : ((pySplit text).getD (idxChoice cIdx (pySplit text).length) "").data.length
        = ((pySplit text).getD (idxChoice cIdx (pySplit text).length) "").length := rfl
    refine ⟨hword, aChoice cA _, bChoice cB _, ha.1, ha.2, hb.1, hb.2,
      introduce_typos_eval_long r cIdx cA cB text hr hw' hword, ?_, ?_, ?_⟩
    · rw [List.length_append, List.length_take, List.length_drop]
      omega
    · intro hab
      have h1 : (((pySplit text).getD (idxChoice cIdx (pySplit text).length)
          "").data.take (bChoice cB ((pySplit text).getD
            (idxChoice cIdx (pySplit text).length) "").length)).take
          (aChoice cA ((pySplit text).getD
            (idxChoice cIdx (pySplit text).length) "").length)
          = ((pySplit text).getD (idxChoice cIdx (pySplit text).length)
              "").data.take (aChoice cA ((pySplit text).getD
                (idxChoice cIdx (pySplit text).length) "").length) := by
        rw [List.take_take]
        congr 1
        omega
      rw [← h1, List.take_append_drop, List.take_append_drop]
    · intro hba
      rw [List.length_append, List.length_take, List.length_drop]
      omega
  · left
    exact ⟨Nat.le_of_not_lt hword,
      introduce_typos_eval_short r cIdx cA cB text hr hw' hword⟩

/-- Witness for the amended C3 at the gate value 0 and the text "hi abcde". -/
theorem c3_typo_mutation_witness :
    ¬ (0 : ℚ) > mkRat 3 10
    ∧ 2 ≤ (pySplit "hi abcde").length
    ∧ (∃ index word, index < (pySplit "hi abcde").length
        ∧ word = (pySplit "hi abcde").getD index ""
        ∧ ((word.length ≤ 3 ∧ introduce_typos 0 1 2 0 "hi abcde"
              = some (pyJoin (pySplit "hi abcde")))
          ∨ (3 < word.length ∧ ∃ a b, 1 ≤ a ∧ a ≤ word.length - 2
              ∧ 1 ≤ b ∧ b ≤ word.length - 1
              ∧ introduce_typos 0 1 2 0 "hi abcde"
                  = some (pyJoin ((pySplit "hi abcde").set index
                      ⟨word.data.take a ++ word.data.drop b⟩))
              ∧ (word.data.take a ++ word.data.drop b).length
                  = a + (word.length - b)
              ∧ (a ≤ b →
                  word.data.take a ++ (word.data.take b).drop a ++ word.data.drop b
                    = word.data)
              ∧ (b < a →
                  word.length < (word.data.take a ++ word.data.drop b).length)))) :=
  ⟨by decide, by decide,
    c3_typo_mutation 0 1 2 0 "hi abcde" (by decide) (by decide)⟩

/-- C6: a non-2xx response from the submission service makes the publish
operation fail with an error message that names both the status code and the
response body, and the body is returned to the caller only on success
(status 200 or 201). -/
theorem c6_non2xx_fails (product_id : PyVal) (review reviewer_name : String)
    (reviewer_email : Option String) (rating : Int) (resp : HttpResponse) :
    (¬ (200 ≤ resp.status_code ∧ resp.status_code < 300) →
      ∃ e, (post_review_to_woocommerce product_id review reviewer_name
              reviewer_email rating resp).2 = Except.error e
        ∧ (toString resp.status_code).data <:+: e.data
        ∧ resp.text.data <:+: e.data)
    ∧ (∀ v, (post_review_to_woocommerce product_id review reviewer_name
              reviewer_email rating resp).2 = Except.ok v →
        (resp.status_code = 200 ∨ resp.status_code = 201) ∧ v = resp.text) := by
  constructor
  · intro h
    have hcond : ¬ (resp.status_code = 200 ∨ resp.status_code = 201) := by
      rintro (he | he) <;> rw [he] at h <;> exact h (by norm_num)
    refine ⟨"Error posting review: " ++ ("Failed to post review: "
      ++ toString resp.status_code ++ ", " ++ resp.text), ?_, ?_, ?_⟩
    · rw [post_review_snd, if_neg hcond]
    · exact ⟨("Error posting review: " ++ "Failed to post review: ").data,
        (", " ++ resp.text).data, by simp⟩
    · exact ⟨("Error posting review: " ++ "Failed to post review: "
        ++ toString resp.status_code ++ ", ").data, [], by simp⟩
  · intro v hv
    rw [post_review_snd] at hv
    by_cases hcond : resp.status_code = 200 ∨ resp.status_code = 201
    · rw [if_pos hcond] at hv
      exact ⟨hcond, (Except.ok.inj hv).symm⟩
    · rw [if_neg hcond] at hv
      exact absurd hv (by simp)

/-- Witness for C6 at a concrete 404 response. -/
theorem c6_non2xx_fails_witness :
    ¬ ((200 : Int) ≤ 404 ∧ (404 : Int) < 300) ∧
    ∃ e, (post_review_to_woocommerce (PyVal.int 42) "Nice" "Jane Doe"
            none 5 ⟨404, "Not Found"⟩).2 = Except.error e
      ∧ (toString (404 : Int)).data <:+: e.data
      ∧ ("Not Found" : String).data <:+: e.data :=
  ⟨by decide,
    (c6_non2xx_fails (PyVal.int 42) "Nice" "Jane Doe" none 5 ⟨404, "Not Found"⟩).1
      (by decide)⟩

/-- C7: the final in-place shuffle of the generated batch is a permutation:
it preserves the multiset of (review text, reviewer name) pairs, and a batch
of size K keeps size K. -/
theorem c7_shuffle_is_permutation (f : Nat → Nat) (batch : List (String × String)) :
    List.Perm (pyShuffle f batch) batch ∧ (pyShuffle f batch).length = batch.length :=
  ⟨pyShuffle_perm f batch, (pyShuffle_perm f batch).length_eq⟩

/-- C5: any model-invocation failure aborts the entire batch generation —
the generator returns an error rather than a partial list, and the pipeline
attempts no submission call for any review of that batch. -/
theorem c5_failure_aborts_batch (product_info : List (String × PyVal))
    (o : GenOracle) (names : List String) (resps : Nat → HttpResponse)
    (i : Nat) (e : String) (hi : i < 10) (he : o.modelResp i = Except.error e) :
    (∃ msg, generate_reviews_with_openai o names = Except.error msg)
    ∧ (runPipeline (Except.ok product_info) o names resps).1 = []
    ∧ (runPipeline (Except.ok product_info) o names resps).2.isSome = true := by
  obtain ⟨msg, hmsg⟩ := generate_error o names ⟨i, hi, e, he⟩
  refine ⟨⟨msg, hmsg⟩, ?_, ?_⟩
  · show (match generate_reviews_with_openai o names with
      | Except.error e => (([] : List Payload), some e)
      | Except.ok reviews => postLoop product_info resps 0 reviews []).1 = []
    rw [hmsg]
  · show (match generate_reviews_with_openai o names with
      | Except.error e => (([] : List Payload), some e)
      | Except.ok reviews => postLoop product_info resps 0 reviews []).2.isSome
        = true
    rw [hmsg]
    rfl

/-- Witness for C5: the first model invocation fails, so the batch is
discarded and no submission is attempted. -/
theorem c5_failure_aborts_batch_witness :
    (0 : Nat) < 10 ∧ failOracle.modelResp 0 = Except.error "APIError"
    ∧ ((∃ msg, generate_reviews_with_openai failOracle ["Alice", "Bob"]
          = Except.error msg)
      ∧ (runPipeline (Except.ok (get_product_info_dict 42 "Widget" "d" "s"))
          failOracle ["Alice", "Bob"] (fun _ => ⟨201, "created"⟩)).1 = []
      ∧ (runPipeline (Except.ok (get_product_info_dict 42 "Widget" "d" "s"))
          failOracle ["Alice", "Bob"] (fun _ => ⟨201, "created"⟩)).2.isSome
            = true) :=
  ⟨by decide, rfl,
   c5_failure_aborts_batch (get_product_info_dict 42 "Widget" "d" "s")
     failOracle ["Alice", "Bob"] (fun _ => ⟨201, "created"⟩) 0 "APIError"
     (by decide) rfl⟩

/-- C1: code bug — a full-variant run whose product lookup succeeds (with any
product_id, e.g. 42) and whose 10 model invocations all succeed does generate
exactly 10 reviews, but the posting loop reads the product id under the
misspelled key "produQct_id" (line 231 of `src/main.py`), which is not a key
of the product-info dictionary, so the run aborts with a KeyError before the
first submission call: 0 submission calls are attempted instead of the
claimed 10 carrying the fetched product_id. -/
theorem c1_misspelled_key_aborts (o : GenOracle) (names : List String)
    (resps : Nat → HttpResponse) (pid : Int) (title descr short : String)
    (hok : ∀ j, j < 10 → ∃ v, o.modelResp j = Except.ok v) :
    (∃ reviews, generate_reviews_with_openai o names = Except.ok reviews
        ∧ reviews.length = 10)
    ∧ dictGet (get_product_info_dict pid title descr short) "produQct_id" = none
    ∧ runPipeline (Except.ok (get_product_info_dict pid title descr short))
        o names resps = ([], some "KeyError: produQct_id") := by
  obtain ⟨reviews, hrev, hlen⟩ := generate_ok o names hok
  refine ⟨⟨reviews, hrev, hlen⟩, rfl, ?_⟩
  show (match generate_reviews_with_openai o names with
    | Except.error e => (([] : List Payload), some e)
    | Except.ok reviews => postLoop (get_product_info_dict pid title descr short)
        resps 0 reviews []) = ([], some "KeyError: produQct_id")
  rw [hrev]
  show postLoop (get_product_info_dict pid title descr short) resps 0 reviews []
    = ([], some "KeyError: produQct_id")
  cases reviews with
  | nil => simp at hlen
  | cons rv rest => rfl

/-- Witness for C1: a concrete run in which every model call succeeds —
10 reviews are generated and the posting loop still attempts 0 submissions. -/
theorem c1_misspelled_key_aborts_witness :
    (∀ j, j < 10 → ∃ v, okOracle.modelResp j = Except.ok v)
    ∧ ((∃ reviews, generate_reviews_with_openai okOracle ["Alice", "Bob"]
          = Except.ok reviews ∧ reviews.length = 10)
      ∧ dictGet (get_product_info_dict 42 "Widget" "desc" "short")
          "produQct_id" = none
      ∧ runPipeline (Except.ok (get_product_info_dict 42 "Widget" "desc" "short"))
          okOracle ["Alice", "Bob"] (fun _ => ⟨201, "created"⟩)
          = ([], some "KeyError: produQct_id")) :=
  ⟨fun _ _ => ⟨"Great store!", rfl⟩,
   c1_misspelled_key_aborts okOracle ["Alice", "Bob"] (fun _ => ⟨201, "created"⟩)
     42 "Widget" "desc" "short" (fun _ _ => ⟨"Great store!", rfl⟩)⟩

end WooBot
